import Mathlib

/-!
Verification of the session state machine, turn scheduler, and vote
aggregator of the impostor party-game bot (`src/main.py`).

The Python module keeps a global registry `games : chat_id → game dict`,
drives cancellable per-turn asyncio timers, and collects ballots during a
voting phase.  We embed that state shallowly: Python dicts become
insertion-ordered association lists, asyncio tasks become entries in an
explicit multiset of pending timers carried by a `World`, and the random
draws (shuffle, impostor choice, word pick) become explicit parameters of
the `begin` operation.  Every operation is a total executable function
`World → World`, with outbound chat messages accumulated in a log.
-/

/-- Session lifecycle states: `waiting` accepts joins, `playing` runs the
turn loop, `voting` collects ballots.  Termination is modelled by removal
from the registry, exactly as `del games[chat_id]` does in the source. -/
inductive GState where
  | waiting
  | playing
  | voting
deriving DecidableEq, Repr

/-- Per-chat tunables (`DEFAULTS` dict in the source). -/
structure Settings where
  turnLength : Nat
  voteLength : Nat
  rounds : Nat
  maxPlayers : Nat
deriving DecidableEq, Repr

/-- `DEFAULTS = {turn_length: 40, vote_length: 60, rounds: 5, max_players: 10}`. -/
def DEFAULTS : Settings := ⟨40, 60, 5, 10⟩

/-- Result of a tally: the impostor was voted out, survived, or (defensive
branch in `finalize_votes`) the session had no impostor recorded. -/
inductive Outcome where
  | ejected
  | survives
  | noImpostor
deriving DecidableEq, Repr

/-- Outbound chat notifications relevant to the claims. -/
inductive Msg where
  | gameCreated
  | alreadyExists
  | noSuchGame
  | alreadyStarted
  | gameFull
  | alreadyJoined
  | joined
  | gameStarted
  | minPlayers
  | cannotStart
  | noPlayersRemain
  | roundTurn (round : Nat) (player : Nat)
  | skip (player : Nat)
  | tooLong
  | wordReceived
  | votingTime
  | result (o : Outcome) (word : Option String)
  | gameEnded
  | gamesKilled
deriving DecidableEq, Repr

/-- Payload of a background timer task: a per-turn timer carries the
turn-taker passed to `turn_timeout`, a vote timer carries nothing. -/
inductive TimerKind where
  | turn (player : Nat)
  | vote
deriving DecidableEq, Repr

/-- One live asyncio task created by `asyncio.create_task`.  `tid` is the
task handle identity; cancelling removes the task from the pending set. -/
structure TimerTask where
  tid : Nat
  chatId : Nat
  kind : TimerKind
deriving DecidableEq, Repr

/-- One entry of the `games` registry (the per-chat game dict). -/
structure Game where
  gameId : Nat
  creator : Nat
  players : List Nat
  state : GState
  turnOrder : List Nat
  currentTurn : Nat
  currentRound : Nat
  turnTask : Option Nat
  impostor : Option Nat
  word : Option String
  clue : Option String
  voteSelections : List (Nat × Option Nat)
  votes : List (Nat × Option Nat)
  doneVotes : List Nat
  settingsAtStart : Option Settings
deriving DecidableEq, Repr

/-- Global state: the registry (insertion-ordered, like a Python dict),
the pending timer tasks, a fresh-task counter, and the message log. -/
structure World where
  games : List (Nat × Game)
  pending : List TimerTask
  nextTid : Nat
  log : List Msg
deriving DecidableEq, Repr

/-- Python `dict.get`: first binding of the key, if any. -/
def alookup {α : Type} (k : Nat) : List (Nat × α) → Option α
  | [] => none
  | (k1, v) :: rest => if k1 = k then some v else alookup k rest

/-- Python `d[k] = v`: overwrite in place if present, else append. -/
def aset {α : Type} (k : Nat) (v : α) : List (Nat × α) → List (Nat × α)
  | [] => [(k, v)]
  | (k1, v1) :: rest => if k1 = k then (k1, v) :: rest else (k1, v1) :: aset k v rest

/-- Python `dict.setdefault(k, v)`: insert only when the key is absent. -/
def asetdefault {α : Type} (k : Nat) (v : α) (l : List (Nat × α)) : List (Nat × α) :=
  match alookup k l with
  | some _ => l
  | none => l ++ [(k, v)]

/-- Python `del d[k]`: drop the (unique, in a dict) binding of the key. -/
def aerase {α : Type} (k : Nat) : List (Nat × α) → List (Nat × α)
  | [] => []
  | (k1, v1) :: rest => if k1 = k then rest else (k1, v1) :: aerase k rest

/-- Python `set.add` on the `done_votes` set. -/
def setAdd (x : Nat) (l : List Nat) : List Nat := if x ∈ l then l else l ++ [x]

/-- Token counter over the message characters: counts the maximal
whitespace-free runs, scanning left to right. -/
def wordCountAux : List Char → Bool → Nat
  | [], _ => 0
  | ch :: rest, inTok =>
    if ch.isWhitespace then wordCountAux rest false
    else (if inTok then 0 else 1) + wordCountAux rest true

/-- `word_count`: `len(text.strip().split())` — Python `str.split()` with no
separator splits on runs of whitespace and drops empty tokens, so the count
is the number of maximal whitespace-free runs of the text. -/
def wordCount (text : String) : Nat := wordCountAux text.data false

/-- Append an outbound message to the log. -/
def addMsg (w : World) (m : Msg) : World := { w with log := w.log ++ [m] }

/-- `task.cancel()` on the optionally stored turn-task handle. -/
def cancelTask (w : World) (t : Option Nat) : World :=
  match t with
  | none => w
  | some tid => { w with pending := w.pending.filter (fun tk => tk.tid ≠ tid) }

/-- The fresh game dict built by `game_cmd`. -/
def freshGame (gameId creator : Nat) : Game :=
  { gameId := gameId, creator := creator, players := [], state := .waiting,
    turnOrder := [], currentTurn := 0, currentRound := 1, turnTask := none,
    impostor := none, word := none, clue := none, voteSelections := [],
    votes := [], doneVotes := [], settingsAtStart := none }

/-- `game_cmd`: create a session unless one already exists for the chat. -/
def gameCmd (w : World) (chatId userId gameId : Nat) : World :=
  match alookup chatId w.games with
  | some _ => addMsg w .alreadyExists
  | none => addMsg { w with games := aset chatId (freshGame gameId userId) w.games } .gameCreated

/-- `handle_join` registry scan: first session whose `game_id` matches. -/
def scanJoin (userId gameId : Nat) (settings : Nat → Settings) :
    List (Nat × Game) → List (Nat × Game) × Msg
  | [] => ([], .noSuchGame)
  | (c, g) :: rest =>
    if g.gameId = gameId then
      if g.state ≠ .waiting then ((c, g) :: rest, .alreadyStarted)
      else if (settings c).maxPlayers ≤ g.players.length then ((c, g) :: rest, .gameFull)
      else if userId ∈ g.players then ((c, g) :: rest, .alreadyJoined)
      else ((c, { g with players := g.players ++ [userId] }) :: rest, .joined)
    else
      let r := scanJoin userId gameId settings rest
      ((c, g) :: r.1, r.2)

/-- `handle_join`. -/
def handleJoin (w : World) (userId gameId : Nat) (settings : Nat → Settings) : World :=
  let r := scanJoin userId gameId settings w.games
  addMsg { w with games := r.1 } r.2

/-- `start_voting`: flip the session to voting, initialize missing ballots
to unset, and start the (never-stored, never-cancelled) vote timer. -/
def startVoting (w : World) (chatId : Nat) : World :=
  match alookup chatId w.games with
  | none => w
  | some g =>
    let g1 := { g with state := GState.voting }
    let w1 := addMsg { w with games := aset chatId g1 w.games } .votingTime
    let g2 := { g1 with
      voteSelections := g1.players.foldl (fun acc pid => asetdefault pid none acc) g1.voteSelections,
      votes := g1.players.foldl (fun acc pid => asetdefault pid none acc) g1.votes }
    let w2 := { w1 with games := aset chatId g2 w1.games }
    { w2 with pending := w2.pending ++ [⟨w2.nextTid, chatId, .vote⟩],
              nextTid := w2.nextTid + 1 }

/-- `start_turn`: dispatch the current turn.  Checks the round limit first
(entering voting), then the empty-turn-order degenerate case, then
announces the turn-taker, cancels any stored turn timer and starts a new
one carrying the turn-taker.  An out-of-range turn index raises in Python
before any mutation, hence the `none ⇒ w` branch. -/
def startTurn (w : World) (chatId : Nat) : World :=
  match alookup chatId w.games with
  | none => w
  | some g =>
    if g.state ≠ .playing then w
    else
      let settings := g.settingsAtStart.getD DEFAULTS
      if settings.rounds < g.currentRound then startVoting w chatId
      else if g.turnOrder = [] then
        addMsg { w with games := aerase chatId w.games } .noPlayersRemain
      else
        match g.turnOrder.get? g.currentTurn with
        | none => w
        | some cur =>
          let w1 := addMsg w (.roundTurn g.currentRound cur)
          let w2 := cancelTask w1 g.turnTask
          let g1 := { g with turnTask := some w2.nextTid }
          { w2 with games := aset chatId g1 w2.games,
                    pending := w2.pending ++ [⟨w2.nextTid, chatId, .turn cur⟩],
                    nextTid := w2.nextTid + 1 }

/-- `advance_turn`: bump the turn index, wrapping into a new round, cancel
the stored timer, and re-dispatch. -/
def advanceTurn (w : World) (chatId : Nat) : World :=
  match alookup chatId w.games with
  | none => w
  | some g =>
    let g1 :=
      if g.turnOrder.length ≤ g.currentTurn + 1 then
        { g with currentTurn := 0, currentRound := g.currentRound + 1, turnTask := none }
      else
        { g with currentTurn := g.currentTurn + 1, turnTask := none }
    let w1 := cancelTask { w with games := aset chatId g1 w.games } g.turnTask
    startTurn w1 chatId

/-- Group-chat branch of `start_cmd` (the "begin" command).  The random
shuffle, impostor choice and word draw are passed in as parameters;
`wordRes = none` models `pick_word_for_chat` raising, which deletes the
session. -/
def startCmdGroup (w : World) (chatId : Nat) (shuffled : List Nat) (imp : Nat)
    (wordRes : Option (String × String)) (settings : Nat → Settings) : World :=
  match alookup chatId w.games with
  | none => w
  | some g =>
    if g.state ≠ .waiting then w
    else if g.players.length < 3 then addMsg w .minPlayers
    else
      match wordRes with
      | none => addMsg { w with games := aerase chatId w.games } .cannotStart
      | some wc =>
        let g2 := { g with
          state := GState.playing, turnOrder := shuffled, impostor := some imp,
          word := some wc.1, clue := some wc.2,
          voteSelections := g.players.foldl (fun acc pid => asetdefault pid none acc) g.voteSelections,
          votes := g.players.foldl (fun acc pid => asetdefault pid none acc) g.votes,
          settingsAtStart := some (settings chatId) }
        startTurn (addMsg { w with games := aset chatId g2 w.games } .gameStarted) chatId

/-- `turn_message_handler`: a group text message during the turn loop. -/
def turnMessageHandler (w : World) (chatId userId : Nat) (text : String) : World :=
  match alookup chatId w.games with
  | none => w
  | some g =>
    if g.state ≠ .playing then w
    else
      match g.turnOrder.get? g.currentTurn with
      | none => w
      | some cur =>
        if cur ≠ userId then w
        else if text = "" then w
        else if 4 < wordCount text then addMsg w .tooLong
        else
          let w1 := cancelTask w g.turnTask
          let g1 := { g with turnTask := none }
          let w2 := addMsg { w1 with games := aset chatId g1 w1.games } .wordReceived
          advanceTurn w2 chatId

/-- The targets actually named by ballots (`None` values are skipped when
`finalize_votes` builds `vote_count`). -/
def castTargets (votes : List (Nat × Option Nat)) : List Nat :=
  votes.filterMap (fun p => p.2)

/-- `vote_count[t]`: number of ballots naming `t`. -/
def countFor (votes : List (Nat × Option Nat)) (t : Nat) : Nat :=
  (votes.filter (fun p => p.2 = some t)).length

/-- `max(vote_count.values())` (0 when no ballot names a target). -/
def maxVoteCount (votes : List (Nat × Option Nat)) : Nat :=
  (castTargets votes).foldr (fun t m => max (countFor votes t) m) 0

/-- `finalize_votes`: guard on a live, voting session; compute the outcome
(`vote_count and impostor_id in vote_count and max(...) == vote_count[impostor_id]`);
announce the result with the secret word; delete the session. -/
def finalizeVotes (w : World) (chatId : Nat) : World :=
  match alookup chatId w.games with
  | none => w
  | some g =>
    if g.state ≠ .voting then w
    else
      let outcome :=
        match g.impostor with
        | none => Outcome.noImpostor
        | some imp =>
          if castTargets g.votes ≠ [] ∧ 0 < countFor g.votes imp ∧
              maxVoteCount g.votes = countFor g.votes imp
          then Outcome.ejected else Outcome.survives
      addMsg { w with games := aerase chatId w.games } (.result outcome g.word)

/-- A pending task's body runs: the task leaves the pending set, then
executes `turn_timeout`'s post-sleep body or `vote_timer`'s. -/
def fireTask (w : World) (tid : Nat) : World :=
  match w.pending.find? (fun tk => tk.tid = tid) with
  | none => w
  | some tk =>
    let w1 := { w with pending := w.pending.filter (fun x => x.tid ≠ tid) }
    match tk.kind with
    | .vote => finalizeVotes w1 tk.chatId
    | .turn userId =>
      match alookup tk.chatId w1.games with
      | none => w1
      | some g =>
        if g.state ≠ .playing then w1
        else
          match g.turnOrder.get? g.currentTurn with
          | none => w1
          | some cur =>
            if cur = userId then
              advanceTurn (addMsg w1 (.skip userId)) tk.chatId
            else w1

/-- The `vote_select` branch scan of `handle_vote_callback`: first session
in registry order containing the voter gets the tentative choice. -/
def scanSelect (voterId target : Nat) : List (Nat × Game) → List (Nat × Game)
  | [] => []
  | (c, g) :: rest =>
    if voterId ∈ g.players then
      (c, { g with voteSelections := aset voterId (some target) g.voteSelections }) :: rest
    else (c, g) :: scanSelect voterId target rest

/-- `handle_vote_callback`, `vote_select_{target}_{voter}` branch. -/
def handleVoteSelect (w : World) (presser target voterId : Nat) : World :=
  if presser ≠ voterId then w
  else { w with games := scanSelect voterId target w.games }

/-- The `vote_done` branch scan: first session containing the voter gets
the tentative choice committed and the voter marked done; returns the chat
key on which `finalize_votes` must run when all participants are done. -/
def scanDone (voterId : Nat) : List (Nat × Game) → List (Nat × Game) × Option Nat
  | [] => ([], none)
  | (c, g) :: rest =>
    if voterId ∈ g.players then
      let selected := (alookup voterId g.voteSelections).getD none
      let g1 := { g with votes := aset voterId selected g.votes,
                         doneVotes := setAdd voterId g.doneVotes }
      let fin := if ∀ p ∈ g1.players, p ∈ g1.doneVotes then some c else none
      ((c, g1) :: rest, fin)
    else
      let r := scanDone voterId rest
      ((c, g) :: r.1, r.2)

/-- `handle_vote_callback`, `vote_done_{voter}` branch. -/
def handleVoteDone (w : World) (presser voterId : Nat) : World :=
  if presser ≠ voterId then w
  else
    let r := scanDone voterId w.games
    let w1 := { w with games := r.1 }
    match r.2 with
    | none => w1
    | some c => finalizeVotes w1 c

/-- `handle_vote` + `send_vote_ui`: the vote deeplink; its only session
mutation is `vote_selections.setdefault(user_id, None)`. -/
def scanVoteUi (userId gameId : Nat) : List (Nat × Game) → List (Nat × Game)
  | [] => []
  | (c, g) :: rest =>
    if g.gameId = gameId then
      if g.state ≠ .voting ∨ userId ∉ g.players then (c, g) :: rest
      else (c, { g with voteSelections := asetdefault userId none g.voteSelections }) :: rest
    else (c, g) :: scanVoteUi userId gameId rest

/-- `handle_vote` (vote deeplink handler). -/
def handleVoteCmd (w : World) (userId gameId : Nat) : World :=
  { w with games := scanVoteUi userId gameId w.games }

/-- `end_cmd`: the creator deletes the session; no timer is cancelled. -/
def endCmd (w : World) (chatId userId : Nat) : World :=
  match alookup chatId w.games with
  | none => w
  | some g =>
    if g.creator ≠ userId then w
    else addMsg { w with games := aerase chatId w.games } .gameEnded

/-- `kill_cmd` (admin check externalized): delete the session; no timer is
cancelled. -/
def killCmd (w : World) (chatId : Nat) : World :=
  match alookup chatId w.games with
  | none => w
  | some _ => addMsg { w with games := aerase chatId w.games } .gamesKilled

/-- All state-mutating entry points of the module, for invariant proofs. -/
inductive Event where
  | create (chatId userId gameId : Nat)
  | join (userId gameId : Nat) (settings : Nat → Settings)
  | begin (chatId : Nat) (shuffled : List Nat) (imp : Nat)
      (wordRes : Option (String × String)) (settings : Nat → Settings)
  | move (chatId userId : Nat) (text : String)
  | fire (tid : Nat)
  | voteUi (userId gameId : Nat)
  | select (presser target voterId : Nat)
  | done (presser voterId : Nat)
  | endGame (chatId userId : Nat)
  | kill (chatId : Nat)

/-- Dispatch one event. -/
def step (w : World) : Event → World
  | .create c u g => gameCmd w c u g
  | .join u g s => handleJoin w u g s
  | .begin c sh imp wr s => startCmdGroup w c sh imp wr s
  | .move c u t => turnMessageHandler w c u t
  | .fire tid => fireTask w tid
  | .voteUi u g => handleVoteCmd w u g
  | .select p t v => handleVoteSelect w p t v
  | .done p v => handleVoteDone w p v
  | .endGame c u => endCmd w c u
  | .kill c => killCmd w c

/-- The empty initial state (no sessions, no tasks). -/
def initWorld : World := ⟨[], [], 0, []⟩

/-- Run a trace of events from a state. -/
def run (w : World) : List Event → World
  | [] => w
  | e :: es => run (step w e) es

def roundLimit (g : Game) : Nat := (g.settingsAtStart.getD DEFAULTS).rounds

/-- Turn index after one `advance_turn` step. -/
def nextIdx (g : Game) : Nat :=
  if g.turnOrder.length ≤ g.currentTurn + 1 then 0 else g.currentTurn + 1

/-- Round number after one `advance_turn` step. -/
def nextRound (g : Game) : Nat :=
  if g.turnOrder.length ≤ g.currentTurn + 1 then g.currentRound + 1 else g.currentRound

/-- All-default settings collaborator. -/
def defaultSettings : Nat → Settings := fun _ => DEFAULTS

def c3TraceWorld : World := run initWorld [
  .create 1 10 42, .join 10 42 defaultSettings, .join 11 42 defaultSettings,
  .join 12 42 defaultSettings,
  .begin 1 [10, 11, 12] 11 (some ("cat", "meows")) defaultSettings,
  .endGame 1 10,
  .create 1 10 43, .join 10 43 defaultSettings, .join 11 43 defaultSettings,
  .join 12 43 defaultSettings,
  .begin 1 [10, 11, 12] 12 (some ("dog", "barks")) defaultSettings]

def c3FiredWorld : World := fireTask c3TraceWorld 0

/-- Trace for the C2 counterexample: a session is begun (its turn timer is
tagged with taker 10 at turn index 0) and then terminated by the creator. -/
def c2TraceWorldA : World := run initWorld [
  .create 1 10 42, .join 10 42 defaultSettings, .join 11 42 defaultSettings,
  .join 12 42 defaultSettings,
  .begin 1 [10, 11, 12] 11 (some ("cat", "meows")) defaultSettings]

/-- Continuation of the C2 trace: termination, a restart under the same
chat key with the reshuffled order [11, 10, 12], and one accepted move, so
the current turn index is 1 (taker 10) while the stale timer from the
first session is still pending. -/
def c2TraceWorldB : World := run c2TraceWorldA [
  .endGame 1 10,
  .create 1 10 43, .join 10 43 defaultSettings, .join 11 43 defaultSettings,
  .join 12 43 defaultSettings,
  .begin 1 [11, 10, 12] 12 (some ("dog", "barks")) defaultSettings,
  .move 1 11 "ok"]

def c4Game : Game := { freshGame 9 1 with players := [1, 2, 3, 4, 5] }
def c4Settings : Nat → Settings := fun _ => { DEFAULTS with maxPlayers := 4 }
def c4World : World := ⟨[(1, c4Game)], [], 0, []⟩

def c5Game : Game :=
  { freshGame 7 1 with
      players := [1, 2, 3], state := .playing, turnOrder := [1, 2, 3],
      voteSelections := [(1, some 2), (2, none), (3, none)],
      votes := [(1, none), (2, none), (3, none)], impostor := some 2,
      word := some "w", settingsAtStart := some DEFAULTS }
def c5World : World := ⟨[(1, c5Game)], [], 0, []⟩

def c6Game : Game :=
  { freshGame 8 1 with
      players := [1, 2, 3], state := .playing, turnOrder := [1, 2, 3],
      voteSelections := [(1, none), (2, none), (3, none)],
      votes := [(1, none), (2, none), (3, none)], impostor := some 3,
      word := some "w", settingsAtStart := some DEFAULTS }
def c6World : World := ⟨[(2, c6Game)], [], 0, []⟩

/-- Keys of the tentative-selection and committed-vote records are
participants of the session. -/
def keysOK (g : Game) : Prop :=
  (∀ p ∈ g.voteSelections, p.1 ∈ g.players) ∧ (∀ p ∈ g.votes, p.1 ∈ g.players)

/-- Every registered session satisfies `keysOK`. -/
def WorldOK (w : World) : Prop := ∀ p ∈ w.games, keysOK p.2

def c9Game : Game :=
  { freshGame 4 1 with
      players := [1, 2, 3], state := .voting, turnOrder := [1, 2, 3],
      voteSelections := [(1, none), (2, none), (3, none)],
      votes := [(1, none), (2, none), (3, none)], impostor := some 2,
      word := some "w", settingsAtStart := some DEFAULTS }
def c9World : World := ⟨[(1, c9Game)], [], 0, []⟩

def c1Game : Game :=
  { freshGame 6 1 with
      players := [1, 2, 3], state := .voting, turnOrder := [2, 1, 3],
      voteSelections := [(1, some 2), (2, some 3), (3, some 2)],
      votes := [(1, some 2), (2, some 3), (3, some 2)], impostor := some 2,
      word := some "cat", settingsAtStart := some DEFAULTS }
def c1World : World := ⟨[(1, c1Game)], [⟨0, 1, .vote⟩], 1, []⟩

def wPlayGame : Game :=
  { freshGame 3 5 with
      players := [5, 6, 7], state := .playing, turnOrder := [5, 6, 7],
      currentTurn := 0, currentRound := 1, turnTask := some 0,
      impostor := some 6, word := some "dog",
      voteSelections := [(5, none), (6, none), (7, none)],
      votes := [(5, none), (6, none), (7, none)],
      settingsAtStart := some DEFAULTS }
def wPlay : World := ⟨[(1, wPlayGame)], [⟨0, 1, .turn 5⟩], 1, []⟩

def wVoteGame : Game := { wPlayGame with state := .voting }
def wVoteWorld : World := ⟨[(1, wVoteGame)], [⟨0, 1, .turn 5⟩], 1, []⟩

def wWaitGame : Game := { freshGame 12 9 with players := [1, 2, 3] }
def wWaitWorld : World := ⟨[(1, wWaitGame)], [], 0, []⟩
def wWaitGameSmall : Game := { freshGame 13 9 with players := [1, 2] }
def wWaitWorldSmall : World := ⟨[(1, wWaitGameSmall)], [], 0, []⟩

def c5wGame : Game :=
  { freshGame 21 1 with
      players := [1, 2], state := .voting,
      voteSelections := [(1, some 2), (2, none)],
      votes := [(1, none), (2, some 1)], doneVotes := [2],
      impostor := some 2, word := some "owl", settingsAtStart := some DEFAULTS }
def c5wWorld : World := ⟨[(3, c5wGame)], [], 0, []⟩

def c6wGame : Game :=
  { freshGame 22 1 with
      players := [4, 5], state := .voting,
      voteSelections := [(4, none), (5, none)],
      votes := [(4, none), (5, none)],
      impostor := some 5, word := some "elk", settingsAtStart := some DEFAULTS }
def c6wWorld : World := ⟨[(2, c6wGame)], [], 0, []⟩

def c10GameA : Game :=
  { freshGame 31 1 with
      players := [10, 11, 12], state := .voting,
      voteSelections := [(10, none), (11, none), (12, none)],
      votes := [(10, none), (11, none), (12, none)],
      impostor := some 11, word := some "fox", settingsAtStart := some DEFAULTS }
def c10GameB : Game :=
  { freshGame 32 2 with
      players := [10, 20, 21], state := .voting,
      voteSelections := [(10, none), (20, none), (21, none)],
      votes := [(10, none), (20, none), (21, none)],
      impostor := some 20, word := some "bee", settingsAtStart := some DEFAULTS }
def c10World : World := ⟨[(1, c10GameA), (2, c10GameB)], [], 0, []⟩

/-! ## Lemmas and claim theorems -/

theorem alookup_aset_self {α : Type} (k : Nat) (v : α) (l : List (Nat × α)) :
    alookup k (aset k v l) = some v := by
  induction l with
  | nil => simp [alookup, aset]
  | cons p rest ih =>
    obtain ⟨k1, v1⟩ := p
    by_cases h : k1 = k
    · simp [alookup, aset, h]
    · simp [alookup, aset, h, ih]

theorem alookup_aset_ne {α : Type} (k1 k2 : Nat) (v : α) (l : List (Nat × α))
    (h : k1 ≠ k2) : alookup k1 (aset k2 v l) = alookup k1 l := by
  induction l with
  | nil =>
    have hne : ¬ k2 = k1 := fun hh => h hh.symm
    simp [alookup, aset, hne]
  | cons p rest ih =>
    obtain ⟨ka, va⟩ := p
    by_cases hk : ka = k2
    · subst hk
      have hne : ¬ ka = k1 := fun hh => h hh.symm
      simp [alookup, aset, hne]
    · by_cases hk1 : ka = k1 <;> simp [alookup, aset, hk, hk1, ih, h]

theorem mem_aset {α : Type} (k : Nat) (v : α) (l : List (Nat × α)) (p : Nat × α) :
    p ∈ aset k v l → p ∈ l ∨ p = (k, v) := by
  induction l with
  | nil => intro h; simp [aset] at h; simp [h]
  | cons q rest ih =>
    obtain ⟨ka, va⟩ := q
    intro h
    by_cases hk : ka = k
    · subst hk
      simp only [aset, if_true] at h
      rcases List.mem_cons.mp h with h | h
      · exact Or.inr (by simp [h])
      · exact Or.inl (List.mem_cons_of_mem _ h)
    · simp only [aset, if_neg hk, List.mem_cons] at h
      rcases h with h | h
      · exact Or.inl (by simp [h])
      · rcases ih h with h1 | h1
        · exact Or.inl (List.mem_cons_of_mem _ h1)
        · exact Or.inr h1

theorem mem_aerase {α : Type} (k : Nat) (l : List (Nat × α)) (p : Nat × α) :
    p ∈ aerase k l → p ∈ l := by
  induction l with
  | nil => intro h; simp [aerase] at h
  | cons q rest ih =>
    obtain ⟨ka, va⟩ := q
    intro h
    by_cases hk : ka = k
    · simp only [aerase, if_pos hk] at h
      exact List.mem_cons_of_mem _ h
    · simp only [aerase, if_neg hk, List.mem_cons] at h
      rcases h with h | h
      · simp [h]
      · exact List.mem_cons_of_mem _ (ih h)

theorem mem_asetdefault {α : Type} (k : Nat) (v : α) (l : List (Nat × α)) (p : Nat × α) :
    p ∈ asetdefault k v l → p ∈ l ∨ p = (k, v) := by
  intro h
  unfold asetdefault at h
  cases halt : alookup k l with
  | some x => rw [halt] at h; exact Or.inl h
  | none =>
    rw [halt] at h
    rcases List.mem_append.mp h with h1 | h1
    · exact Or.inl h1
    · simp at h1; simp [h1]

theorem mem_foldl_asetdefault {α : Type} (ps : List Nat) (v : α) (m : List (Nat × α))
    (p : Nat × α) : p ∈ ps.foldl (fun acc q => asetdefault q v acc) m →
    p ∈ m ∨ (p.1 ∈ ps ∧ p.2 = v) := by
  induction ps generalizing m with
  | nil => intro h; simpa using h
  | cons a as ih =>
    intro h
    rw [List.foldl_cons] at h
    rcases ih _ h with h1 | h1
    · rcases mem_asetdefault a v m p h1 with h2 | h2
      · exact Or.inl h2
      · exact Or.inr ⟨by simp [h2], by simp [h2]⟩
    · exact Or.inr ⟨List.mem_cons_of_mem _ h1.1, h1.2⟩

theorem aset_aset {α : Type} (k : Nat) (v v1 : α) (l : List (Nat × α)) :
    aset k v (aset k v1 l) = aset k v l := by
  induction l with
  | nil => simp [aset]
  | cons p rest ih =>
    obtain ⟨ka, va⟩ := p
    by_cases hk : ka = k
    · simp [aset, hk]
    · simp [aset, hk, ih]

theorem alookup_mem {α : Type} (k : Nat) (v : α) (l : List (Nat × α)) :
    alookup k l = some v → (k, v) ∈ l := by
  induction l with
  | nil => intro h; simp [alookup] at h
  | cons p rest ih =>
    obtain ⟨ka, va⟩ := p
    intro h
    by_cases hk : ka = k
    · simp only [alookup, if_pos hk] at h
      subst hk
      simp [Option.some.inj h]
    · simp only [alookup, if_neg hk] at h
      exact List.mem_cons_of_mem _ (ih h)

theorem alookup_append_first {α : Type} (c : Nat) (g : α) (l1 l2 : List (Nat × α)) :
    (∀ p ∈ l1, p.1 ≠ c) → alookup c (l1 ++ (c, g) :: l2) = some g := by
  induction l1 with
  | nil => intro _; simp [alookup]
  | cons p rest ih =>
    obtain ⟨ka, va⟩ := p
    intro h
    have hne : ka ≠ c := h (ka, va) (List.mem_cons_self _ _)
    have hrec := ih (fun q hq => h q (List.mem_cons_of_mem _ hq))
    simp only [List.cons_append, alookup, if_neg hne]
    simpa using hrec

theorem aerase_append_first {α : Type} (c : Nat) (g : α) (l1 l2 : List (Nat × α)) :
    (∀ p ∈ l1, p.1 ≠ c) → aerase c (l1 ++ (c, g) :: l2) = l1 ++ l2 := by
  induction l1 with
  | nil => intro _; simp [aerase]
  | cons p rest ih =>
    obtain ⟨ka, va⟩ := p
    intro h
    have hne : ka ≠ c := h (ka, va) (List.mem_cons_self _ _)
    have hrec := ih (fun q hq => h q (List.mem_cons_of_mem _ hq))
    simp only [List.cons_append, aerase, if_neg hne]
    simpa using hrec

theorem countFor_le_max (votes : List (Nat × Option Nat)) (t : Nat)
    (h : t ∈ castTargets votes) : countFor votes t ≤ maxVoteCount votes := by
  revert h
  unfold maxVoteCount
  generalize castTargets votes = l
  induction l with
  | nil => intro h; simp at h
  | cons a as ih =>
    intro h
    simp only [List.foldr_cons]
    rcases List.mem_cons.mp h with h1 | h1
    · subst h1; exact le_max_left _ _
    · exact le_trans (ih h1) (le_max_right _ _)

theorem one_le_countFor (votes : List (Nat × Option Nat)) (t : Nat)
    (h : t ∈ castTargets votes) : 1 ≤ countFor votes t := by
  unfold castTargets at h
  rcases List.mem_filterMap.mp h with ⟨p, hp, hpt⟩
  unfold countFor
  have : p ∈ votes.filter (fun q => q.2 = some t) :=
    List.mem_filter.mpr ⟨hp, by simp [hpt]⟩
  exact List.length_pos.mpr (List.ne_nil_of_mem this)

theorem one_le_maxVoteCount (votes : List (Nat × Option Nat))
    (h : castTargets votes ≠ []) : 1 ≤ maxVoteCount votes := by
  rcases List.exists_mem_of_ne_nil _ h with ⟨t, ht⟩
  exact le_trans (one_le_countFor votes t ht) (countFor_le_max votes t ht)

theorem cancelTask_games (w : World) (t : Option Nat) : (cancelTask w t).games = w.games := by
  cases t <;> rfl

theorem cancelTask_nextTid (w : World) (t : Option Nat) :
    (cancelTask w t).nextTid = w.nextTid := by
  cases t <;> rfl

theorem cancelTask_log (w : World) (t : Option Nat) : (cancelTask w t).log = w.log := by
  cases t <;> rfl

theorem get?_inj_nodup {l : List Nat} {i j : Nat} (hi : i < l.length) (hn : l.Nodup)
    (h : l.get? i = l.get? j) : i = j := by
  rw [List.get?_eq_getElem?, List.get?_eq_getElem?] at h
  exact List.getElem?_inj hi hn h

theorem startTurn_spec (w : World) (c : Nat) (g : Game)
    (hg : alookup c w.games = some g) (hs : g.state = .playing)
    (hb : g.currentTurn < g.turnOrder.length) :
    ∃ g2, alookup c (startTurn w c).games = some g2 ∧
      g2.currentTurn = g.currentTurn ∧ g2.currentRound = g.currentRound ∧
      g2.turnOrder = g.turnOrder ∧ g2.players = g.players ∧
      g2.settingsAtStart = g.settingsAtStart ∧
      g2.state = (if roundLimit g < g.currentRound then GState.voting else GState.playing) := by
  have hne : g.turnOrder ≠ [] := List.ne_nil_of_length_pos (by omega)
  have hsne : ¬ (g.state ≠ GState.playing) := by simp [hs]
  simp only [startTurn, hg]
  rw [if_neg hsne]
  by_cases hr : roundLimit g < g.currentRound
  · have hr2 : (g.settingsAtStart.getD DEFAULTS).rounds < g.currentRound := hr
    rw [if_pos hr2]
    simp only [startVoting, hg, addMsg]
    refine ⟨_, alookup_aset_self _ _ _, rfl, rfl, rfl, rfl, rfl, ?_⟩
    rw [if_pos hr]
  · have hr2 : ¬ (g.settingsAtStart.getD DEFAULTS).rounds < g.currentRound := hr
    rw [if_neg hr2, if_neg hne]
    obtain ⟨cur, hcur⟩ : ∃ cur, g.turnOrder.get? g.currentTurn = some cur :=
      ⟨g.turnOrder.get ⟨g.currentTurn, hb⟩, List.get?_eq_get hb⟩
    rw [hcur]
    refine ⟨_, alookup_aset_self _ _ _, rfl, rfl, rfl, rfl, rfl, ?_⟩
    rw [if_neg hr]
    exact hs

theorem advanceTurn_spec (w : World) (c : Nat) (g : Game)
    (hg : alookup c w.games = some g) (hs : g.state = .playing)
    (hb : g.currentTurn < g.turnOrder.length) :
    ∃ g2, alookup c (advanceTurn w c).games = some g2 ∧
      g2.currentTurn = nextIdx g ∧ g2.currentRound = nextRound g ∧
      g2.turnOrder = g.turnOrder ∧ g2.players = g.players ∧
      g2.state = (if roundLimit g < nextRound g then GState.voting else GState.playing) := by
  simp only [advanceTurn, hg]
  by_cases hw : g.turnOrder.length ≤ g.currentTurn + 1
  · rw [if_pos hw]
    set g1 : Game := { g with currentTurn := 0, currentRound := g.currentRound + 1, turnTask := none } with hg1
    have hg1look : alookup c (cancelTask { w with games := aset c g1 w.games } g.turnTask).games = some g1 := by
      rw [cancelTask_games]
      exact alookup_aset_self _ _ _
    have hb1 : g1.currentTurn < g1.turnOrder.length := by simp [hg1]; omega
    obtain ⟨g2, h1, h2, h3, h4, h5, h6, h7⟩ := startTurn_spec _ c g1 hg1look (by simp [hg1, hs]) hb1
    refine ⟨g2, h1, ?_, ?_, ?_, ?_, ?_⟩
    · simpa [hg1, nextIdx, hw] using h2
    · simpa [hg1, nextRound, hw] using h3
    · simpa [hg1] using h4
    · simpa [hg1] using h5
    · rw [h7]
      simp [hg1, roundLimit, nextRound, hw]
  · rw [if_neg hw]
    set g1 : Game := { g with currentTurn := g.currentTurn + 1, turnTask := none } with hg1
    have hg1look : alookup c (cancelTask { w with games := aset c g1 w.games } g.turnTask).games = some g1 := by
      rw [cancelTask_games]
      exact alookup_aset_self _ _ _
    have hb1 : g1.currentTurn < g1.turnOrder.length := by simp [hg1]; omega
    obtain ⟨g2, h1, h2, h3, h4, h5, h6, h7⟩ := startTurn_spec _ c g1 hg1look (by simp [hg1, hs]) hb1
    refine ⟨g2, h1, ?_, ?_, ?_, ?_, ?_⟩
    · simpa [hg1, nextIdx, hw] using h2
    · simpa [hg1, nextRound, hw] using h3
    · simpa [hg1] using h4
    · simpa [hg1] using h5
    · rw [h7]
      simp [hg1, roundLimit, nextRound, hw]

/-- Claim C7: for every PLAYING session, `advance_turn` increments the turn
index by one, wrapping to 0 and incrementing the round number when the
incremented index reaches the length of the turn order, and then re-invokes
turn dispatch; at the start of dispatch, if the round number exceeds the
snapshotted round limit the session transitions from PLAYING to VOTING. -/
theorem advance_and_dispatch_spec (w : World) (c : Nat) (g : Game)
    (hg : alookup c w.games = some g) (hs : g.state = .playing)
    (hb : g.currentTurn < g.turnOrder.length) :
    ∃ g2, alookup c (advanceTurn w c).games = some g2 ∧
      g2.currentTurn = (if g.currentTurn + 1 = g.turnOrder.length then 0 else g.currentTurn + 1) ∧
      g2.currentRound = (if g.currentTurn + 1 = g.turnOrder.length then g.currentRound + 1 else g.currentRound) ∧
      g2.state = (if roundLimit g < g2.currentRound then GState.voting else GState.playing) := by
  obtain ⟨g2, h1, h2, h3, h4, h5, h6⟩ := advanceTurn_spec w c g hg hs hb
  refine ⟨g2, h1, ?_, ?_, ?_⟩
  · rw [h2]
    unfold nextIdx
    by_cases hcase : g.currentTurn + 1 = g.turnOrder.length
    · rw [if_pos (by omega), if_pos hcase]
    · rw [if_neg (by omega), if_neg hcase]
  · rw [h3]
    unfold nextRound
    by_cases hcase : g.currentTurn + 1 = g.turnOrder.length
    · rw [if_pos (by omega), if_pos hcase]
    · rw [if_neg (by omega), if_neg hcase]
  · rw [h6, h3]

/-- Claim C1: whenever the tally (`finalize_votes`) runs on a live VOTING
session with an impostor, the outcome is impostor-ejected iff at least one
ballot names a target and the impostor's vote count equals the maximum
per-target count (ties count as voted out); with zero ballots cast the
outcome is impostor-survives; the result message always reveals the secret
word and the session is erased from the registry.  The final conjunct shows
the vote-timeout expiry path routes into `finalize_votes`. -/
theorem finalize_votes_outcome_spec (w : World) (c : Nat) (g : Game) (imp : Nat)
    (hg : alookup c w.games = some g) (hs : g.state = .voting) (hi : g.impostor = some imp) :
    (∃ o, (finalizeVotes w c).log = w.log ++ [Msg.result o g.word] ∧
      (o = Outcome.ejected ↔ castTargets g.votes ≠ [] ∧ countFor g.votes imp = maxVoteCount g.votes) ∧
      (castTargets g.votes = [] → o = Outcome.survives) ∧
      (finalizeVotes w c).games = aerase c w.games) ∧
    (∀ tid c2, w.pending.find? (fun tk => tk.tid = tid) = some ⟨tid, c2, TimerKind.vote⟩ →
      fireTask w tid = finalizeVotes { w with pending := w.pending.filter (fun x => x.tid ≠ tid) } c2) := by
  constructor
  · simp only [finalizeVotes, hg]
    rw [if_neg (by simp [hs])]
    simp only [hi]
    by_cases hcond : castTargets g.votes ≠ [] ∧ 0 < countFor g.votes imp ∧
        maxVoteCount g.votes = countFor g.votes imp
    · rw [if_pos hcond]
      refine ⟨Outcome.ejected, rfl, ⟨fun _ => ⟨hcond.1, hcond.2.2.symm⟩, fun _ => rfl⟩, ?_, rfl⟩
      intro hnil
      exact absurd hnil hcond.1
    · rw [if_neg hcond]
      refine ⟨Outcome.survives, rfl, ?_, fun _ => rfl, rfl⟩
      constructor
      · intro h
        exact absurd h (by simp)
      · intro hc
        exfalso
        apply hcond
        have h1 := one_le_maxVoteCount g.votes hc.1
        exact ⟨hc.1, by omega, hc.2.symm⟩
  · intro tid c2 hfind
    simp only [fireTask, hfind]

/-- Claim C3: after the creator ends a session with `/end` while its turn
timer is pending, the timer task is not cancelled; once a new session is
begun under the same chat key there are two outstanding timers for that
key, and firing the stale one announces a skip and advances the new
session's turn — so termination does not invalidate the outstanding timer
as the claim requires. -/
theorem stale_timer_survives_termination :
    (c3TraceWorld.pending.filter (fun tk => tk.chatId = 1)).length = 2 ∧
    c3TraceWorld.pending = [⟨0, 1, .turn 10⟩, ⟨1, 1, .turn 10⟩] ∧
    (alookup 1 c3TraceWorld.games).map (fun g => (g.gameId, g.state, g.currentTurn)) =
      some (43, GState.playing, 0) ∧
    (alookup 1 c3FiredWorld.games).map (fun g => (g.gameId, g.currentTurn)) = some (43, 1) ∧
    c3FiredWorld.log = c3TraceWorld.log ++ [Msg.skip 10, Msg.roundTurn 1 11] := by
  decide

theorem startTurn_pending_of_none (w : World) (c : Nat) (g : Game)
    (hg : alookup c w.games = some g) (hs : g.state = .playing)
    (hb : g.currentTurn < g.turnOrder.length) (ht : g.turnTask = none) :
    ∃ k, (startTurn w c).pending = w.pending ++ [⟨w.nextTid, c, k⟩] := by
  have hne : g.turnOrder ≠ [] := List.ne_nil_of_length_pos (by omega)
  have hsne : ¬ (g.state ≠ GState.playing) := by simp [hs]
  simp only [startTurn, hg]
  rw [if_neg hsne]
  by_cases hr : (g.settingsAtStart.getD DEFAULTS).rounds < g.currentRound
  · rw [if_pos hr]
    exact ⟨.vote, by simp only [startVoting, hg, addMsg]⟩
  · rw [if_neg hr, if_neg hne]
    obtain ⟨cur, hcur⟩ : ∃ cur, g.turnOrder.get? g.currentTurn = some cur :=
      ⟨g.turnOrder.get ⟨g.currentTurn, hb⟩, List.get?_eq_get hb⟩
    rw [hcur]
    exact ⟨.turn cur, by simp only [ht, cancelTask, addMsg]⟩

theorem advanceTurn_pending_of_none (w : World) (c : Nat) (g : Game)
    (hg : alookup c w.games = some g) (hs : g.state = .playing)
    (hb : g.currentTurn < g.turnOrder.length) (ht : g.turnTask = none) :
    ∃ k, (advanceTurn w c).pending = w.pending ++ [⟨w.nextTid, c, k⟩] := by
  simp only [advanceTurn, hg, ht, cancelTask]
  by_cases hw : g.turnOrder.length ≤ g.currentTurn + 1
  · rw [if_pos hw]
    exact startTurn_pending_of_none _ c _ (alookup_aset_self _ _ _) hs (by simp; omega) rfl
  · rw [if_neg hw]
    exact startTurn_pending_of_none _ c _ (alookup_aset_self _ _ _) hs (by simp; omega) rfl

/-- Claim C8: a submitted move is a no-op unless the actor is exactly the
current turn-taker; content of more than 4 whitespace-delimited tokens is
rejected with a notice, leaving the registry (turn index, round) and the
pending timers unchanged; an accepted move of at most 4 tokens cancels the
pending timer for the current turn-taker and advances the turn by exactly
one step. -/
theorem move_submission_spec (w : World) (c uid : Nat) (text : String) (g : Game) (cur : Nat)
    (hg : alookup c w.games = some g) (hs : g.state = .playing)
    (hcur : g.turnOrder.get? g.currentTurn = some cur) (htext : text ≠ "") :
    (uid ≠ cur → turnMessageHandler w c uid text = w) ∧
    (uid = cur → 4 < wordCount text →
      (turnMessageHandler w c uid text).games = w.games ∧
      (turnMessageHandler w c uid text).pending = w.pending ∧
      (turnMessageHandler w c uid text).log = w.log ++ [Msg.tooLong]) ∧
    (uid = cur → wordCount text ≤ 4 →
      (∀ tid0, g.turnTask = some tid0 → tid0 < w.nextTid →
        ∀ tk ∈ (turnMessageHandler w c uid text).pending, tk.tid ≠ tid0) ∧
      (∃ g2, alookup c (turnMessageHandler w c uid text).games = some g2 ∧
        g2.currentTurn = nextIdx g ∧ g2.currentRound = nextRound g)) := by
  have hb : g.currentTurn < g.turnOrder.length := by
    rcases List.get?_eq_some.mp hcur with ⟨h, _⟩
    exact h
  refine ⟨?_, ?_, ?_⟩
  · intro hne
    simp only [turnMessageHandler, hg, hcur]
    rw [if_neg (by simp [hs]), if_pos (fun hh => hne hh.symm)]
  · intro heq hlong
    subst heq
    simp only [turnMessageHandler, hg, hcur]
    rw [if_neg (by simp [hs]), if_neg (by simp), if_neg htext, if_pos hlong]
    exact ⟨rfl, rfl, rfl⟩
  · intro heq hshort
    subst heq
    simp only [turnMessageHandler, hg, hcur]
    rw [if_neg (by simp [hs]), if_neg (by simp), if_neg htext, if_neg (by omega)]
    set g1 : Game := { g with turnTask := none } with hg1def
    set w2 : World := addMsg { (cancelTask w g.turnTask) with
      games := aset c g1 (cancelTask w g.turnTask).games } .wordReceived with hw2def
    have hg2look : alookup c w2.games = some g1 := by
      simp only [hw2def, addMsg]
      exact alookup_aset_self _ _ _
    have hg1s : g1.state = .playing := hs
    have hg1b : g1.currentTurn < g1.turnOrder.length := hb
    have hg1t : g1.turnTask = none := rfl
    constructor
    · intro tid0 htid0 hlt tk htk
      obtain ⟨k, hk⟩ := advanceTurn_pending_of_none w2 c g1 hg2look hg1s hg1b hg1t
      rw [hk] at htk
      have hw2p : w2.pending = w.pending.filter (fun x => x.tid ≠ tid0) := by
        simp [hw2def, addMsg, cancelTask, htid0]
      have hw2n : w2.nextTid = w.nextTid := by
        simp [hw2def, addMsg, cancelTask, htid0]
      rcases List.mem_append.mp htk with h1 | h1
      · rw [hw2p] at h1
        have := List.of_mem_filter h1
        simpa using this
      · simp at h1
        subst h1
        show w2.nextTid ≠ tid0
        rw [hw2n]
        omega
    · obtain ⟨g2, h1, h2, h3, h4, h5, h6⟩ := advanceTurn_spec w2 c g1 hg2look hg1s hg1b
      exact ⟨g2, h1, h2, h3⟩

theorem startVoting_log (w : World) (c : Nat) :
    ∃ l, (startVoting w c).log = w.log ++ l := by
  cases hg : alookup c w.games with
  | none => exact ⟨[], by simp [startVoting, hg]⟩
  | some g => exact ⟨[.votingTime], by simp [startVoting, hg, addMsg]⟩

theorem startTurn_log (w : World) (c : Nat) :
    ∃ l, (startTurn w c).log = w.log ++ l := by
  cases hg : alookup c w.games with
  | none => exact ⟨[], by simp [startTurn, hg]⟩
  | some g =>
    simp only [startTurn, hg]
    by_cases hs : g.state ≠ GState.playing
    · rw [if_pos hs]; exact ⟨[], by simp⟩
    · rw [if_neg hs]
      by_cases hr : (g.settingsAtStart.getD DEFAULTS).rounds < g.currentRound
      · rw [if_pos hr]; exact startVoting_log w c
      · rw [if_neg hr]
        by_cases hne : g.turnOrder = []
        · rw [if_pos hne]; exact ⟨[.noPlayersRemain], rfl⟩
        · rw [if_neg hne]
          cases hcur : g.turnOrder.get? g.currentTurn with
          | none => exact ⟨[], by simp⟩
          | some cur =>
            refine ⟨[.roundTurn g.currentRound cur], ?_⟩
            show (cancelTask (addMsg w (Msg.roundTurn g.currentRound cur)) g.turnTask).log = _
            rw [cancelTask_log]
            simp [addMsg]

theorem startTurn_log_of (w1 w : World) (c : Nat) (h : w1.log = w.log) :
    ∃ l, (startTurn w1 c).log = w.log ++ l := by
  obtain ⟨l, hl⟩ := startTurn_log w1 c
  exact ⟨l, by rw [hl, h]⟩

theorem advanceTurn_log (w : World) (c : Nat) :
    ∃ l, (advanceTurn w c).log = w.log ++ l := by
  cases hg : alookup c w.games with
  | none => exact ⟨[], by simp [advanceTurn, hg]⟩
  | some g =>
    simp only [advanceTurn, hg]
    by_cases hw : g.turnOrder.length ≤ g.currentTurn + 1
    · rw [if_pos hw]
      exact startTurn_log_of _ w c (by rw [cancelTask_log])
    · rw [if_neg hw]
      exact startTurn_log_of _ w c (by rw [cancelTask_log])

/-- Claim C2 (amended): a turn timer started by dispatch is tagged with the
turn-taker identity only — the turn index is not part of the tag (first
conjunct).  On expiry the handler is a no-op — registry and log unchanged —
whenever the session under the chat key is gone, not PLAYING, or the
current turn-taker differs from the tagged identity (second conjunct);
otherwise it announces a skip and advances the turn via `advance_turn`
(third conjunct).  Within one session the frozen, duplicate-free turn order
makes an identity match determine the turn index, so a same-session stale
timer is ignored (fourth conjunct); a timer surviving into a successor
session under the same chat key, however, fires on identity match alone,
even when the current turn index differs from the index at creation (see
the counterexample). -/
theorem turn_timer_identity_guard :
    (∀ (w : World) (c : Nat) (g : Game) (cur : Nat),
      alookup c w.games = some g → g.state = .playing →
      ¬ roundLimit g < g.currentRound → g.turnOrder.get? g.currentTurn = some cur →
      (⟨w.nextTid, c, .turn cur⟩ : TimerTask) ∈ (startTurn w c).pending ∧
      (∃ g2, alookup c (startTurn w c).games = some g2 ∧ g2.turnTask = some w.nextTid)) ∧
    (∀ (w : World) (tid c user : Nat),
      w.pending.find? (fun tk => tk.tid = tid) = some ⟨tid, c, .turn user⟩ →
      (∀ g, alookup c w.games = some g →
        g.state ≠ .playing ∨ g.turnOrder.get? g.currentTurn ≠ some user) →
      (fireTask w tid).games = w.games ∧ (fireTask w tid).log = w.log) ∧
    (∀ (w : World) (tid c user : Nat) (g : Game),
      w.pending.find? (fun tk => tk.tid = tid) = some ⟨tid, c, .turn user⟩ →
      alookup c w.games = some g → g.state = .playing →
      g.turnOrder.get? g.currentTurn = some user →
      fireTask w tid =
        advanceTurn (addMsg { w with pending := w.pending.filter (fun x => x.tid ≠ tid) }
          (Msg.skip user)) c ∧
      Msg.skip user ∈ (fireTask w tid).log) ∧
    (∀ (g : Game) (user i : Nat),
      g.turnOrder.Nodup → g.turnOrder.get? i = some user →
      g.turnOrder.get? g.currentTurn = some user → g.currentTurn = i) := by
  refine ⟨?_, ?_, ?_, ?_⟩
  · intro w c g cur hg hs hr hcur
    have hne : g.turnOrder ≠ [] := by
      intro h
      rw [h] at hcur
      simp [List.get?] at hcur
    have hr2 : ¬ (g.settingsAtStart.getD DEFAULTS).rounds < g.currentRound := hr
    simp only [startTurn, hg]
    rw [if_neg (by simp [hs]), if_neg hr2, if_neg hne]
    simp only [hcur]
    constructor
    · simp [addMsg, cancelTask_nextTid]
    · refine ⟨_, alookup_aset_self _ _ _, ?_⟩
      simp [addMsg, cancelTask_nextTid]
  · intro w tid c user hfind hcase
    simp only [fireTask, hfind]
    cases hg : alookup c w.games with
    | none =>
      have hgl : alookup c ({ w with pending := w.pending.filter (fun x => x.tid ≠ tid) } : World).games = none := hg
      simp only [hgl]
      exact ⟨by trivial, by trivial⟩
    | some g =>
      have hgl : alookup c ({ w with pending := w.pending.filter (fun x => x.tid ≠ tid) } : World).games = some g := hg
      simp only [hgl]
      rcases hcase g hg with hst | hctk
      · rw [if_pos hst]
        exact ⟨by trivial, by trivial⟩
      · by_cases hst : g.state ≠ GState.playing
        · rw [if_pos hst]; exact ⟨by trivial, by trivial⟩
        · rw [if_neg hst]
          cases hcur : g.turnOrder.get? g.currentTurn with
          | none => exact ⟨by trivial, by trivial⟩
          | some cur =>
            rw [hcur] at hctk
            have hcu : ¬ cur = user := by
              intro h
              exact hctk (by rw [h])
            simp only [if_neg hcu]
            exact ⟨by trivial, by trivial⟩
  · intro w tid c user g hfind hg hs hcur
    have hgl : alookup c ({ w with pending := w.pending.filter (fun x => x.tid ≠ tid) } : World).games = some g := hg
    have hmain : fireTask w tid =
        advanceTurn (addMsg { w with pending := w.pending.filter (fun x => x.tid ≠ tid) }
          (Msg.skip user)) c := by
      simp only [fireTask, hfind, hgl]
      rw [if_neg (by simp [hs])]
      simp only [hcur]
      simp
    refine ⟨hmain, ?_⟩
    rw [hmain]
    obtain ⟨l, hl⟩ := advanceTurn_log
      (addMsg { w with pending := w.pending.filter (fun x => x.tid ≠ tid) } (Msg.skip user)) c
    rw [hl]
    simp [addMsg]
  · intro g user i hnodup hi hcur
    have hb2 : g.currentTurn < g.turnOrder.length := by
      rcases List.get?_eq_some.mp hcur with ⟨h, _⟩
      exact h
    exact get?_inj_nodup hb2 hnodup (by rw [hcur, hi])

/-- Claim C2 counterexample: in `c2TraceWorldA` the stale timer is created
with tag (taker 10) while the current turn index is 0; after termination, a
restart with the reshuffled order [11, 10, 12] and one accepted move
(`c2TraceWorldB`), the current turn index is 1 — it no longer matches the
index at the timer's creation, and the session that created the timer is
gone — yet firing the stale timer announces a skip of player 10 and
advances the turn instead of being a no-op, refuting both halves of the
original claim: the tag carries no turn index, and expiry is not a no-op
on index mismatch. -/
theorem stale_index_timer_still_skips :
    ((⟨0, 1, .turn 10⟩ : TimerTask) ∈ c2TraceWorldA.pending ∧
      (alookup 1 c2TraceWorldA.games).map (fun g => (g.currentTurn, g.turnOrder)) =
        some (0, [10, 11, 12])) ∧
    ((⟨0, 1, .turn 10⟩ : TimerTask) ∈ c2TraceWorldB.pending ∧
      (alookup 1 c2TraceWorldB.games).map (fun g => (g.currentTurn, g.turnOrder)) =
        some (1, [11, 10, 12])) ∧
    (Msg.skip 10 ∈ (fireTask c2TraceWorldB 0).log ∧
      (alookup 1 (fireTask c2TraceWorldB 0).games).map (fun g => g.currentTurn) = some 2) := by
  decide

theorem scanSelect_no_match (voterId target : Nat) (l : List (Nat × Game))
    (h : ∀ p ∈ l, voterId ∉ p.2.players) : scanSelect voterId target l = l := by
  induction l with
  | nil => rfl
  | cons p rest ih =>
    obtain ⟨c, g⟩ := p
    have hng : voterId ∉ g.players := h (c, g) (List.mem_cons_self _ _)
    simp only [scanSelect, if_neg hng]
    simpa using ih (fun q hq => h q (List.mem_cons_of_mem _ hq))

theorem scanSelect_split (voterId target : Nat) (l1 l2 : List (Nat × Game)) (c : Nat) (g : Game)
    (hl1 : ∀ p ∈ l1, voterId ∉ p.2.players) (hmem : voterId ∈ g.players) :
    scanSelect voterId target (l1 ++ (c, g) :: l2) =
      l1 ++ (c, { g with voteSelections := aset voterId (some target) g.voteSelections }) :: l2 := by
  induction l1 with
  | nil => simp [scanSelect, hmem]
  | cons p rest ih =>
    obtain ⟨ca, ga⟩ := p
    have hng : voterId ∉ ga.players := hl1 (ca, ga) (List.mem_cons_self _ _)
    simp only [List.cons_append, scanSelect, if_neg hng]
    simpa using ih (fun q hq => hl1 q (List.mem_cons_of_mem _ hq))

theorem scanSelect_idem (voterId target : Nat) (l : List (Nat × Game)) :
    scanSelect voterId target (scanSelect voterId target l) = scanSelect voterId target l := by
  induction l with
  | nil => rfl
  | cons p rest ih =>
    obtain ⟨c, g⟩ := p
    by_cases hmem : voterId ∈ g.players
    · simp only [scanSelect, if_pos hmem]
      have hmem2 : voterId ∈ ({ g with voteSelections := aset voterId (some target) g.voteSelections } : Game).players := hmem
      simp only [scanSelect, if_pos hmem2, aset_aset]
    · simp only [scanSelect, if_neg hmem, ih]

theorem scanDone_no_match (voterId : Nat) (l : List (Nat × Game))
    (h : ∀ p ∈ l, voterId ∉ p.2.players) : scanDone voterId l = (l, none) := by
  induction l with
  | nil => rfl
  | cons p rest ih =>
    obtain ⟨c, g⟩ := p
    have hng : voterId ∉ g.players := h (c, g) (List.mem_cons_self _ _)
    simp only [scanDone, if_neg hng]
    rw [ih (fun q hq => h q (List.mem_cons_of_mem _ hq))]

theorem scanDone_split (voterId : Nat) (l1 l2 : List (Nat × Game)) (c : Nat) (g : Game)
    (hl1 : ∀ p ∈ l1, voterId ∉ p.2.players) (hmem : voterId ∈ g.players) :
    scanDone voterId (l1 ++ (c, g) :: l2) =
      (l1 ++ (c, { g with votes := aset voterId ((alookup voterId g.voteSelections).getD none) g.votes,
                          doneVotes := setAdd voterId g.doneVotes }) :: l2,
       if ∀ p ∈ ({ g with votes := aset voterId ((alookup voterId g.voteSelections).getD none) g.votes,
                          doneVotes := setAdd voterId g.doneVotes } : Game).players,
            p ∈ ({ g with votes := aset voterId ((alookup voterId g.voteSelections).getD none) g.votes,
                          doneVotes := setAdd voterId g.doneVotes } : Game).doneVotes
       then some c else none) := by
  induction l1 with
  | nil => simp [scanDone, hmem]
  | cons p rest ih =>
    obtain ⟨ca, ga⟩ := p
    have hng : voterId ∉ ga.players := hl1 (ca, ga) (List.mem_cons_self _ _)
    simp only [List.cons_append, scanDone, if_neg hng, List.append_eq]
    rw [ih (fun q hq => hl1 q (List.mem_cons_of_mem _ hq))]

/-- Claim C4 (amended): the begin command transitions a session from
WAITING to PLAYING whenever participant count ≥ 3 and a word is available,
regardless of `max_players` (the upper bound is enforced only at join
time); below 3 participants it fails with an insufficient-players notice
and the session stays WAITING; it is ignored when the session is absent or
not WAITING. -/
theorem begin_player_bounds_amended (w : World) (c : Nat) (shuffled : List Nat) (imp : Nat)
    (wc : String × String) (settings : Nat → Settings) :
    (alookup c w.games = none → startCmdGroup w c shuffled imp (some wc) settings = w) ∧
    (∀ g, alookup c w.games = some g → g.state ≠ .waiting →
      startCmdGroup w c shuffled imp (some wc) settings = w) ∧
    (∀ g, alookup c w.games = some g → g.state = .waiting → g.players.length < 3 →
      (startCmdGroup w c shuffled imp (some wc) settings).games = w.games ∧
      (startCmdGroup w c shuffled imp (some wc) settings).log = w.log ++ [Msg.minPlayers]) ∧
    (∀ g, alookup c w.games = some g → g.state = .waiting → 3 ≤ g.players.length →
      g.currentTurn < shuffled.length → g.currentRound ≤ (settings c).rounds →
      ∃ g2, alookup c (startCmdGroup w c shuffled imp (some wc) settings).games = some g2 ∧
        g2.state = .playing) := by
  refine ⟨?_, ?_, ?_, ?_⟩
  · intro hg
    simp [startCmdGroup, hg]
  · intro g hg hs
    simp only [startCmdGroup, hg]
    rw [if_pos hs]
  · intro g hg hs hlen
    simp only [startCmdGroup, hg]
    rw [if_neg (by simp [hs]), if_pos hlen]
    exact ⟨rfl, rfl⟩
  · intro g hg hs hlen hb hr
    simp only [startCmdGroup, hg]
    rw [if_neg (by simp [hs]), if_neg (by omega)]
    set g2 : Game := { g with
      state := GState.playing, turnOrder := shuffled, impostor := some imp,
      word := some wc.1, clue := some wc.2,
      voteSelections := g.players.foldl (fun acc pid => asetdefault pid none acc) g.voteSelections,
      votes := g.players.foldl (fun acc pid => asetdefault pid none acc) g.votes,
      settingsAtStart := some (settings c) } with hg2
    have hlook : alookup c (addMsg { w with games := aset c g2 w.games } .gameStarted).games = some g2 := by
      simp only [addMsg]
      exact alookup_aset_self _ _ _
    obtain ⟨g3, h1, h2, h3, h4, h5, h6, h7⟩ :=
      startTurn_spec (addMsg { w with games := aset c g2 w.games } .gameStarted) c g2
        hlook rfl (by simpa [hg2] using hb)
    refine ⟨g3, h1, ?_⟩
    rw [h7]
    have : ¬ roundLimit g2 < g2.currentRound := by
      simp only [hg2, roundLimit]
      simp
      omega
    rw [if_neg this]

/-- Claim C4 counterexample: a WAITING session with 5 participants under a
`max_players` of 4 still starts — `start_cmd` never checks the upper
bound, refuting "with more participants than max_players it does not
start". -/
theorem begin_ignores_max_players :
    c4Game.players.length = 5 ∧ (c4Settings 1).maxPlayers = 4 ∧ c4Game.state = GState.waiting ∧
    (alookup 1 (startCmdGroup c4World 1 [1, 2, 3, 4, 5] 1 (some ("w", "c")) c4Settings).games).map
      (fun g => g.state) = some GState.playing := by
  decide

/-- Claim C5 (amended): the done handler requires only that the presser
matches the ballot's voter and that the voter is a participant of some
session (the first such session in registry order); regardless of that
session's state it commits the tentative choice into the vote record and
marks the voter finalized; when the finalized set then covers all
participants it invokes the tally, which runs (removing the session) only
when the session is VOTING and no-ops otherwise. -/
theorem finalize_ballot_amended (w : World) (presser voterId : Nat) :
    (presser ≠ voterId → handleVoteDone w presser voterId = w) ∧
    ((∀ p ∈ w.games, voterId ∉ p.2.players) → handleVoteDone w presser voterId = w) ∧
    (∀ l1 c g l2, presser = voterId → w.games = l1 ++ (c, g) :: l2 →
      (∀ p ∈ l1, voterId ∉ p.2.players) → (∀ p ∈ l1, p.1 ≠ c) → voterId ∈ g.players →
      ∀ g1, g1 = { g with votes := aset voterId ((alookup voterId g.voteSelections).getD none) g.votes,
                          doneVotes := setAdd voterId g.doneVotes } →
      ((¬ ∀ p ∈ g1.players, p ∈ g1.doneVotes) →
        (handleVoteDone w presser voterId).games = l1 ++ (c, g1) :: l2) ∧
      ((∀ p ∈ g1.players, p ∈ g1.doneVotes) → g.state = .voting →
        (handleVoteDone w presser voterId).games = l1 ++ l2) ∧
      ((∀ p ∈ g1.players, p ∈ g1.doneVotes) → g.state ≠ .voting →
        (handleVoteDone w presser voterId).games = l1 ++ (c, g1) :: l2)) := by
  refine ⟨?_, ?_, ?_⟩
  · intro hp
    simp only [handleVoteDone, if_pos hp]
  · intro hnone
    simp only [handleVoteDone]
    by_cases hp : presser ≠ voterId
    · rw [if_pos hp]
    · rw [if_neg hp]
      rw [scanDone_no_match voterId w.games hnone]
  · intro l1 c g l2 hp hsplit hl1 hkeys hmem g1 hg1
    have hscan := scanDone_split voterId l1 l2 c g hl1 hmem
    rw [← hg1] at hscan
    refine ⟨?_, ?_, ?_⟩
    · intro hnotall
      simp only [handleVoteDone, if_neg (by simp [hp] : ¬ presser ≠ voterId), hsplit, hscan]
      rw [if_neg hnotall]
    · intro hall hvot
      simp only [handleVoteDone, if_neg (by simp [hp] : ¬ presser ≠ voterId), hsplit, hscan]
      rw [if_pos hall]
      simp only [finalizeVotes]
      have hlook : alookup c (l1 ++ (c, g1) :: l2) = some g1 := alookup_append_first c g1 l1 l2 hkeys
      have hg1s : g1.state = GState.voting := by rw [hg1]; exact hvot
      have : alookup c ({ w with games := l1 ++ (c, g1) :: l2 } : World).games = some g1 := hlook
      simp only [this]
      rw [if_neg (by simp [hg1s])]
      simp only [addMsg]
      exact aerase_append_first c g1 l1 l2 hkeys
    · intro hall hvot
      simp only [handleVoteDone, if_neg (by simp [hp] : ¬ presser ≠ voterId), hsplit, hscan]
      rw [if_pos hall]
      simp only [finalizeVotes]
      have hlook : alookup c (l1 ++ (c, g1) :: l2) = some g1 := alookup_append_first c g1 l1 l2 hkeys
      have hg1s : g1.state ≠ GState.voting := by rw [hg1]; exact hvot
      have : alookup c ({ w with games := l1 ++ (c, g1) :: l2 } : World).games = some g1 := hlook
      simp only [this]
      rw [if_pos hg1s]

/-- Claim C5 counterexample: a done press on a session that is PLAYING —
not VOTING — still commits the tentative choice and marks the voter
finalized, refuting "valid only while the session is VOTING (otherwise a
no-op on session state)". -/
theorem finalize_ballot_mutates_nonvoting :
    c5Game.state ≠ GState.voting ∧
    handleVoteDone c5World 1 1 ≠ c5World ∧
    (alookup 1 (handleVoteDone c5World 1 1).games).map (fun g => (g.votes, g.doneVotes)) =
      some ([(1, some 2), (2, none), (3, none)], [1]) := by
  decide

/-- Claim C6 (amended): the select handler requires only that the presser
matches the ballot's voter and that the voter is a participant of some
session (the first such session in registry order); it records the target
as the voter's tentative choice regardless of that session's state; it is
idempotent on re-selection, and a call whose voter is in no session (in
particular not a participant) leaves the state unchanged. -/
theorem select_candidate_amended (w : World) (presser target voterId : Nat) :
    (presser ≠ voterId → handleVoteSelect w presser target voterId = w) ∧
    ((∀ p ∈ w.games, voterId ∉ p.2.players) → handleVoteSelect w presser target voterId = w) ∧
    (∀ l1 c g l2, presser = voterId → w.games = l1 ++ (c, g) :: l2 →
      (∀ p ∈ l1, voterId ∉ p.2.players) → voterId ∈ g.players →
      (handleVoteSelect w presser target voterId).games =
        l1 ++ (c, { g with voteSelections := aset voterId (some target) g.voteSelections }) :: l2) ∧
    (handleVoteSelect (handleVoteSelect w presser target voterId) presser target voterId =
      handleVoteSelect w presser target voterId) := by
  refine ⟨?_, ?_, ?_, ?_⟩
  · intro hp
    simp only [handleVoteSelect, if_pos hp]
  · intro hnone
    simp only [handleVoteSelect]
    by_cases hp : presser ≠ voterId
    · rw [if_pos hp]
    · rw [if_neg hp, scanSelect_no_match voterId target w.games hnone]
  · intro l1 c g l2 hp hsplit hl1 hmem
    simp only [handleVoteSelect, if_neg (by simp [hp] : ¬ presser ≠ voterId), hsplit]
    exact scanSelect_split voterId target l1 l2 c g hl1 hmem
  · by_cases hp : presser ≠ voterId
    · simp only [handleVoteSelect, if_pos hp]
    · simp only [handleVoteSelect, if_neg hp]
      rw [scanSelect_idem]

/-- Claim C6 counterexample: a select press on a session that is PLAYING —
not VOTING — still records the tentative choice, refuting "an invalid call
(session not VOTING ...) leaves the session state unchanged". -/
theorem select_mutates_nonvoting :
    c6Game.state ≠ GState.voting ∧
    handleVoteSelect c6World 1 3 1 ≠ c6World ∧
    (alookup 2 (handleVoteSelect c6World 1 3 1).games).map (fun g => g.voteSelections) =
      some [(1, some 3), (2, none), (3, none)] := by
  decide

/-- Claim C10: a vote select or done press is resolved by scanning the
registry in iteration order for the first session in which the presser is
a participant — the callback data carries no session identifier, so the
ballot's own session is ignored; the first matching session receives the
update and every other session is untouched, even when the voter is a
participant of several live sessions. -/
theorem vote_callback_first_session_resolution (w : World) (presser target voterId : Nat)
    (hp : presser = voterId)
    (l1 l2 : List (Nat × Game)) (c : Nat) (g : Game)
    (hsplit : w.games = l1 ++ (c, g) :: l2)
    (hl1 : ∀ p ∈ l1, voterId ∉ p.2.players)
    (hmem : voterId ∈ g.players) :
    (handleVoteSelect w presser target voterId).games =
      l1 ++ (c, { g with voteSelections := aset voterId (some target) g.voteSelections }) :: l2 ∧
    (∀ p ∈ l1 ++ l2, p ∈ (handleVoteSelect w presser target voterId).games) ∧
    (scanDone voterId w.games).1 =
      l1 ++ (c, { g with votes := aset voterId ((alookup voterId g.voteSelections).getD none) g.votes,
                         doneVotes := setAdd voterId g.doneVotes }) :: l2 := by
  have hsel : (handleVoteSelect w presser target voterId).games =
      l1 ++ (c, { g with voteSelections := aset voterId (some target) g.voteSelections }) :: l2 := by
    simp only [handleVoteSelect, if_neg (by simp [hp] : ¬ presser ≠ voterId), hsplit]
    exact scanSelect_split voterId target l1 l2 c g hl1 hmem
  refine ⟨hsel, ?_, ?_⟩
  · intro p hpmem
    rw [hsel]
    rcases List.mem_append.mp hpmem with h | h
    · exact List.mem_append.mpr (Or.inl h)
    · exact List.mem_append.mpr (Or.inr (List.mem_cons_of_mem _ h))
  · rw [hsplit, scanDone_split voterId l1 l2 c g hl1 hmem]

theorem keys_foldl_sub (players : List Nat) (m : List (Nat × Option Nat))
    (hm : ∀ p ∈ m, p.1 ∈ players) :
    ∀ p ∈ players.foldl (fun acc pid => asetdefault pid none acc) m, p.1 ∈ players := by
  intro p hp
  rcases mem_foldl_asetdefault players none m p hp with h | h
  · exact hm p h
  · exact h.1

theorem keys_aset_sub (players : List Nat) (k : Nat) (v : Option Nat)
    (m : List (Nat × Option Nat)) (hm : ∀ p ∈ m, p.1 ∈ players) (hk : k ∈ players) :
    ∀ p ∈ aset k v m, p.1 ∈ players := by
  intro p hp
  rcases mem_aset k v m p hp with h | h
  · exact hm p h
  · rw [h]; exact hk

theorem worldOK_startVoting (w : World) (c : Nat) (hw : WorldOK w) :
    WorldOK (startVoting w c) := by
  cases hg : alookup c w.games with
  | none => simp only [startVoting, hg]; exact hw
  | some g =>
    have hk := hw (c, g) (alookup_mem c g w.games hg)
    simp only [startVoting, hg, addMsg]
    intro p hp
    rcases mem_aset _ _ _ p hp with h | h
    · rcases mem_aset _ _ _ p h with h2 | h2
      · exact hw p h2
      · rw [h2]; exact hk
    · rw [h]
      exact ⟨keys_foldl_sub g.players _ hk.1, keys_foldl_sub g.players _ hk.2⟩

theorem worldOK_startTurn (w : World) (c : Nat) (hw : WorldOK w) :
    WorldOK (startTurn w c) := by
  cases hg : alookup c w.games with
  | none => simp only [startTurn, hg]; exact hw
  | some g =>
    have hk := hw (c, g) (alookup_mem c g w.games hg)
    simp only [startTurn, hg]
    by_cases hs : g.state ≠ GState.playing
    · rw [if_pos hs]; exact hw
    · rw [if_neg hs]
      by_cases hr : (g.settingsAtStart.getD DEFAULTS).rounds < g.currentRound
      · rw [if_pos hr]; exact worldOK_startVoting w c hw
      · rw [if_neg hr]
        by_cases hne : g.turnOrder = []
        · rw [if_pos hne]
          intro p hp
          exact hw p (mem_aerase c w.games p hp)
        · rw [if_neg hne]
          cases hcur : g.turnOrder.get? g.currentTurn with
          | none => exact hw
          | some cur =>
            intro p hp
            simp only [addMsg, cancelTask_games] at hp
            rcases mem_aset _ _ _ p hp with h | h
            · exact hw p h
            · rw [h]; exact hk

theorem worldOK_advanceTurn (w : World) (c : Nat) (hw : WorldOK w) :
    WorldOK (advanceTurn w c) := by
  cases hg : alookup c w.games with
  | none => simp only [advanceTurn, hg]; exact hw
  | some g =>
    have hk := hw (c, g) (alookup_mem c g w.games hg)
    simp only [advanceTurn, hg]
    by_cases hwrap : g.turnOrder.length ≤ g.currentTurn + 1
    · rw [if_pos hwrap]
      apply worldOK_startTurn
      intro p hp
      rw [cancelTask_games] at hp
      rcases mem_aset _ _ _ p hp with h | h
      · exact hw p h
      · rw [h]; exact hk
    · rw [if_neg hwrap]
      apply worldOK_startTurn
      intro p hp
      rw [cancelTask_games] at hp
      rcases mem_aset _ _ _ p hp with h | h
      · exact hw p h
      · rw [h]; exact hk

theorem worldOK_finalizeVotes (w : World) (c : Nat) (hw : WorldOK w) :
    WorldOK (finalizeVotes w c) := by
  cases hg : alookup c w.games with
  | none => simp only [finalizeVotes, hg]; exact hw
  | some g =>
    simp only [finalizeVotes, hg]
    by_cases hs : g.state ≠ GState.voting
    · rw [if_pos hs]; exact hw
    · rw [if_neg hs]
      intro p hp
      simp only [addMsg] at hp
      exact hw p (mem_aerase c w.games p hp)

theorem worldOK_fireTask (w : World) (tid : Nat) (hw : WorldOK w) :
    WorldOK (fireTask w tid) := by
  cases hfind : w.pending.find? (fun tk => tk.tid = tid) with
  | none => simp only [fireTask, hfind]; exact hw
  | some tk =>
    simp only [fireTask, hfind]
    have hw1 : WorldOK ({ w with pending := w.pending.filter (fun x => x.tid ≠ tid) } : World) := hw
    cases tk.kind with
    | vote => exact worldOK_finalizeVotes _ _ hw1
    | turn userId =>
      cases hg : alookup tk.chatId ({ w with pending := w.pending.filter (fun x => x.tid ≠ tid) } : World).games with
      | none => simp only [hg]; exact hw1
      | some g =>
        simp only [hg]
        by_cases hs : g.state ≠ GState.playing
        · rw [if_pos hs]; exact hw1
        · rw [if_neg hs]
          cases hcur : g.turnOrder.get? g.currentTurn with
          | none => exact hw1
          | some cur =>
            by_cases hcu : cur = userId
            · simp only [if_pos hcu]
              exact worldOK_advanceTurn _ _ hw1
            · simp only [if_neg hcu]
              exact hw1

theorem worldOK_gameCmd (w : World) (c u gid : Nat) (hw : WorldOK w) :
    WorldOK (gameCmd w c u gid) := by
  cases hg : alookup c w.games with
  | some g => simp only [gameCmd, hg, addMsg]; exact hw
  | none =>
    simp only [gameCmd, hg, addMsg]
    intro p hp
    rcases mem_aset _ _ _ p hp with h | h
    · exact hw p h
    · rw [h]
      exact ⟨by simp [freshGame], by simp [freshGame]⟩

theorem scanJoin_keys (u gid : Nat) (settings : Nat → Settings) (l : List (Nat × Game))
    (h : ∀ p ∈ l, keysOK p.2) : ∀ p ∈ (scanJoin u gid settings l).1, keysOK p.2 := by
  induction l with
  | nil => intro p hp; simp [scanJoin] at hp
  | cons q rest ih =>
    obtain ⟨c, g⟩ := q
    have hkg : keysOK g := h (c, g) (List.mem_cons_self _ _)
    have hrest : ∀ p ∈ rest, keysOK p.2 := fun p hp => h p (List.mem_cons_of_mem _ hp)
    intro p hp
    by_cases hid : g.gameId = gid
    · simp only [scanJoin, if_pos hid] at hp
      by_cases hst : g.state ≠ GState.waiting
      · rw [if_pos hst] at hp
        rcases List.mem_cons.mp hp with h1 | h1
        · rw [h1]; exact hkg
        · exact hrest p h1
      · rw [if_neg hst] at hp
        by_cases hful : (settings c).maxPlayers ≤ g.players.length
        · rw [if_pos hful] at hp
          rcases List.mem_cons.mp hp with h1 | h1
          · rw [h1]; exact hkg
          · exact hrest p h1
        · rw [if_neg hful] at hp
          by_cases hjn : u ∈ g.players
          · rw [if_pos hjn] at hp
            rcases List.mem_cons.mp hp with h1 | h1
            · rw [h1]; exact hkg
            · exact hrest p h1
          · rw [if_neg hjn] at hp
            rcases List.mem_cons.mp hp with h1 | h1
            · rw [h1]
              refine ⟨?_, ?_⟩
              · intro q hq
                exact List.mem_append_left _ (hkg.1 q hq)
              · intro q hq
                exact List.mem_append_left _ (hkg.2 q hq)
            · exact hrest p h1
    · simp only [scanJoin, if_neg hid] at hp
      rcases List.mem_cons.mp hp with h1 | h1
      · rw [h1]; exact hkg
      · exact ih hrest p h1

theorem worldOK_handleJoin (w : World) (u gid : Nat) (settings : Nat → Settings)
    (hw : WorldOK w) : WorldOK (handleJoin w u gid settings) := by
  simp only [handleJoin, addMsg]
  intro p hp
  exact scanJoin_keys u gid settings w.games hw p hp

theorem worldOK_startCmdGroup (w : World) (c : Nat) (sh : List Nat) (imp : Nat)
    (wr : Option (String × String)) (settings : Nat → Settings) (hw : WorldOK w) :
    WorldOK (startCmdGroup w c sh imp wr settings) := by
  cases hg : alookup c w.games with
  | none => simp only [startCmdGroup, hg]; exact hw
  | some g =>
    have hk := hw (c, g) (alookup_mem c g w.games hg)
    simp only [startCmdGroup, hg]
    by_cases hs : g.state ≠ GState.waiting
    · rw [if_pos hs]; exact hw
    · rw [if_neg hs]
      by_cases hlen : g.players.length < 3
      · rw [if_pos hlen]
        simp only [addMsg]
        exact hw
      · rw [if_neg hlen]
        cases wr with
        | none =>
          simp only [addMsg]
          intro p hp
          exact hw p (mem_aerase c w.games p hp)
        | some wc =>
          apply worldOK_startTurn
          simp only [addMsg]
          intro p hp
          rcases mem_aset _ _ _ p hp with h | h
          · exact hw p h
          · rw [h]
            exact ⟨keys_foldl_sub g.players _ hk.1, keys_foldl_sub g.players _ hk.2⟩

theorem worldOK_turnMessageHandler (w : World) (c u : Nat) (text : String) (hw : WorldOK w) :
    WorldOK (turnMessageHandler w c u text) := by
  cases hg : alookup c w.games with
  | none => simp only [turnMessageHandler, hg]; exact hw
  | some g =>
    have hk := hw (c, g) (alookup_mem c g w.games hg)
    simp only [turnMessageHandler, hg]
    by_cases hs : g.state ≠ GState.playing
    · rw [if_pos hs]; exact hw
    · rw [if_neg hs]
      cases hcur : g.turnOrder.get? g.currentTurn with
      | none => exact hw
      | some cur =>
        simp only []
        by_cases hne : cur ≠ u
        · rw [if_pos hne]; exact hw
        · rw [if_neg hne]
          by_cases hemp : text = ""
          · rw [if_pos hemp]; exact hw
          · rw [if_neg hemp]
            by_cases hlong : 4 < wordCount text
            · rw [if_pos hlong]
              simp only [addMsg]
              exact hw
            · rw [if_neg hlong]
              apply worldOK_advanceTurn
              simp only [addMsg, cancelTask_games]
              intro p hp
              rcases mem_aset _ _ _ p hp with h | h
              · exact hw p h
              · rw [h]; exact hk

theorem scanSelect_keys (v t : Nat) (l : List (Nat × Game))
    (h : ∀ p ∈ l, keysOK p.2) : ∀ p ∈ scanSelect v t l, keysOK p.2 := by
  induction l with
  | nil => intro p hp; simp [scanSelect] at hp
  | cons q rest ih =>
    obtain ⟨c, g⟩ := q
    have hkg : keysOK g := h (c, g) (List.mem_cons_self _ _)
    have hrest : ∀ p ∈ rest, keysOK p.2 := fun p hp => h p (List.mem_cons_of_mem _ hp)
    intro p hp
    by_cases hmem : v ∈ g.players
    · simp only [scanSelect, if_pos hmem] at hp
      rcases List.mem_cons.mp hp with h1 | h1
      · rw [h1]
        exact ⟨keys_aset_sub g.players v (some t) _ hkg.1 hmem, hkg.2⟩
      · exact hrest p h1
    · simp only [scanSelect, if_neg hmem] at hp
      rcases List.mem_cons.mp hp with h1 | h1
      · rw [h1]; exact hkg
      · exact ih hrest p h1

theorem worldOK_handleVoteSelect (w : World) (pr t v : Nat) (hw : WorldOK w) :
    WorldOK (handleVoteSelect w pr t v) := by
  by_cases hp : pr ≠ v
  · simp only [handleVoteSelect, if_pos hp]; exact hw
  · simp only [handleVoteSelect, if_neg hp]
    intro p hpm
    exact scanSelect_keys v t w.games hw p hpm

theorem scanDone_keys (v : Nat) (l : List (Nat × Game))
    (h : ∀ p ∈ l, keysOK p.2) : ∀ p ∈ (scanDone v l).1, keysOK p.2 := by
  induction l with
  | nil => intro p hp; simp [scanDone] at hp
  | cons q rest ih =>
    obtain ⟨c, g⟩ := q
    have hkg : keysOK g := h (c, g) (List.mem_cons_self _ _)
    have hrest : ∀ p ∈ rest, keysOK p.2 := fun p hp => h p (List.mem_cons_of_mem _ hp)
    intro p hp
    by_cases hmem : v ∈ g.players
    · simp only [scanDone, if_pos hmem] at hp
      rcases List.mem_cons.mp hp with h1 | h1
      · rw [h1]
        exact ⟨hkg.1, keys_aset_sub g.players v _ _ hkg.2 hmem⟩
      · exact hrest p h1
    · simp only [scanDone, if_neg hmem] at hp
      rcases List.mem_cons.mp hp with h1 | h1
      · rw [h1]; exact hkg
      · exact ih hrest p h1

theorem worldOK_handleVoteDone (w : World) (pr v : Nat) (hw : WorldOK w) :
    WorldOK (handleVoteDone w pr v) := by
  by_cases hp : pr ≠ v
  · simp only [handleVoteDone, if_pos hp]; exact hw
  · simp only [handleVoteDone, if_neg hp]
    have hw1 : WorldOK ({ w with games := (scanDone v w.games).1 } : World) := by
      intro p hpm
      exact scanDone_keys v w.games hw p hpm
    cases hfin : (scanDone v w.games).2 with
    | none => exact hw1
    | some c2 => exact worldOK_finalizeVotes _ c2 hw1

theorem scanVoteUi_keys (u gid : Nat) (l : List (Nat × Game))
    (h : ∀ p ∈ l, keysOK p.2) : ∀ p ∈ scanVoteUi u gid l, keysOK p.2 := by
  induction l with
  | nil => intro p hp; simp [scanVoteUi] at hp
  | cons q rest ih =>
    obtain ⟨c, g⟩ := q
    have hkg : keysOK g := h (c, g) (List.mem_cons_self _ _)
    have hrest : ∀ p ∈ rest, keysOK p.2 := fun p hp => h p (List.mem_cons_of_mem _ hp)
    intro p hp
    by_cases hid : g.gameId = gid
    · simp only [scanVoteUi, if_pos hid] at hp
      by_cases hguard : g.state ≠ GState.voting ∨ u ∉ g.players
      · rw [if_pos hguard] at hp
        rcases List.mem_cons.mp hp with h1 | h1
        · rw [h1]; exact hkg
        · exact hrest p h1
      · rw [if_neg hguard] at hp
        push_neg at hguard
        rcases List.mem_cons.mp hp with h1 | h1
        · rw [h1]
          refine ⟨?_, hkg.2⟩
          intro q hq
          rcases mem_asetdefault u none g.voteSelections q hq with h2 | h2
          · exact hkg.1 q h2
          · rw [h2]; exact hguard.2
        · exact hrest p h1
    · simp only [scanVoteUi, if_neg hid] at hp
      rcases List.mem_cons.mp hp with h1 | h1
      · rw [h1]; exact hkg
      · exact ih hrest p h1

theorem worldOK_handleVoteCmd (w : World) (u gid : Nat) (hw : WorldOK w) :
    WorldOK (handleVoteCmd w u gid) := by
  simp only [handleVoteCmd]
  intro p hp
  exact scanVoteUi_keys u gid w.games hw p hp

theorem worldOK_endCmd (w : World) (c u : Nat) (hw : WorldOK w) :
    WorldOK (endCmd w c u) := by
  cases hg : alookup c w.games with
  | none => simp only [endCmd, hg]; exact hw
  | some g =>
    simp only [endCmd, hg]
    by_cases hcr : g.creator ≠ u
    · rw [if_pos hcr]; exact hw
    · rw [if_neg hcr]
      simp only [addMsg]
      intro p hp
      exact hw p (mem_aerase c w.games p hp)

theorem worldOK_killCmd (w : World) (c : Nat) (hw : WorldOK w) :
    WorldOK (killCmd w c) := by
  cases hg : alookup c w.games with
  | none => simp only [killCmd, hg]; exact hw
  | some g =>
    simp only [killCmd, hg, addMsg]
    intro p hp
    exact hw p (mem_aerase c w.games p hp)

theorem worldOK_step (w : World) (e : Event) (hw : WorldOK w) : WorldOK (step w e) := by
  cases e with
  | create c u g => exact worldOK_gameCmd w c u g hw
  | join u g s => exact worldOK_handleJoin w u g s hw
  | begin c sh imp wr s => exact worldOK_startCmdGroup w c sh imp wr s hw
  | move c u t => exact worldOK_turnMessageHandler w c u t hw
  | fire tid => exact worldOK_fireTask w tid hw
  | voteUi u g => exact worldOK_handleVoteCmd w u g hw
  | select p t v => exact worldOK_handleVoteSelect w p t v hw
  | done p v => exact worldOK_handleVoteDone w p v hw
  | endGame c u => exact worldOK_endCmd w c u hw
  | kill c => exact worldOK_killCmd w c hw

theorem worldOK_run (w : World) (hw : WorldOK w) (es : List Event) : WorldOK (run w es) := by
  induction es generalizing w with
  | nil => exact hw
  | cons e rest ih => exact ih (step w e) (worldOK_step w e hw)

/-- Claim C9 (amended): from the empty initial state, after any trace of
events, the keys of every session's tentative-selection record and vote
record are participants of that session — ballot initialization, candidate
selection and ballot finalization all preserve this.  (The original claim
about the recorded values is refuted separately: targets are not validated
against the participant set.) -/
theorem vote_record_keys_invariant (es : List Event) : WorldOK (run initWorld es) := by
  apply worldOK_run
  intro p hp
  simp [initWorld] at hp

/-- Claim C9 counterexample: the select handler stores whatever target
identity the callback carries — here 99, not a participant — and the done
handler commits it into the vote record, refuting "every recorded value is
either unset or the identity of a participant". -/
theorem vote_value_not_participant :
    (99 ∉ c9Game.players) ∧
    (alookup 1 (handleVoteDone (handleVoteSelect c9World 1 99 1) 1 1).games).map
      (fun g => (alookup 1 g.voteSelections, alookup 1 g.votes)) =
      some (some (some 99), some (some 99)) := by
  decide

/-- Claim C1 witness: the tally theorem applied to a concrete voting session. -/
theorem finalize_votes_outcome_spec_witness :
    (∃ o, (finalizeVotes c1World 1).log = c1World.log ++ [Msg.result o c1Game.word] ∧
      (o = Outcome.ejected ↔ castTargets c1Game.votes ≠ [] ∧
        countFor c1Game.votes 2 = maxVoteCount c1Game.votes) ∧
      (castTargets c1Game.votes = [] → o = Outcome.survives) ∧
      (finalizeVotes c1World 1).games = aerase 1 c1World.games) ∧
    (∀ tid c2, c1World.pending.find? (fun tk => tk.tid = tid) = some ⟨tid, c2, TimerKind.vote⟩ →
      fireTask c1World tid =
        finalizeVotes { c1World with
          pending := c1World.pending.filter (fun x => x.tid ≠ tid) } c2) :=
  finalize_votes_outcome_spec c1World 1 c1Game 2 rfl rfl rfl

/-- Claim C2 witness: the four conjuncts applied to concrete worlds — tag
creation on a live turn, a stale expiry against a VOTING session, a
matching expiry that skips the turn-taker, and the same-session index
determination. -/
theorem turn_timer_identity_guard_witness :
    ((⟨wPlay.nextTid, 1, .turn 5⟩ : TimerTask) ∈ (startTurn wPlay 1).pending ∧
      (∃ g2, alookup 1 (startTurn wPlay 1).games = some g2 ∧ g2.turnTask = some wPlay.nextTid)) ∧
    ((fireTask wVoteWorld 0).games = wVoteWorld.games ∧
      (fireTask wVoteWorld 0).log = wVoteWorld.log) ∧
    (fireTask wPlay 0 =
        advanceTurn (addMsg { wPlay with
          pending := wPlay.pending.filter (fun x => x.tid ≠ 0) } (Msg.skip 5)) 1 ∧
      Msg.skip 5 ∈ (fireTask wPlay 0).log) ∧
    (wPlayGame.currentTurn = 0) := by
  refine ⟨?_, ?_, ?_, ?_⟩
  · exact turn_timer_identity_guard.1 wPlay 1 wPlayGame 5 rfl rfl (by decide) rfl
  · refine turn_timer_identity_guard.2.1 wVoteWorld 0 1 5 rfl ?_
    intro g hgg
    have hEq : wVoteGame = g := Option.some.inj hgg
    subst hEq
    exact Or.inl (by decide)
  · exact turn_timer_identity_guard.2.2.1 wPlay 0 1 5 wPlayGame rfl rfl rfl rfl
  · exact turn_timer_identity_guard.2.2.2 wPlayGame 5 0 (by decide) rfl rfl

/-- Claim C7 witness: one advance step on a concrete 3-player session. -/
theorem advance_and_dispatch_spec_witness :
    ∃ g2, alookup 1 (advanceTurn wPlay 1).games = some g2 ∧
      g2.currentTurn =
        (if wPlayGame.currentTurn + 1 = wPlayGame.turnOrder.length then 0
         else wPlayGame.currentTurn + 1) ∧
      g2.currentRound =
        (if wPlayGame.currentTurn + 1 = wPlayGame.turnOrder.length then wPlayGame.currentRound + 1
         else wPlayGame.currentRound) ∧
      g2.state = (if roundLimit wPlayGame < g2.currentRound then GState.voting else GState.playing) :=
  advance_and_dispatch_spec wPlay 1 wPlayGame rfl rfl (by decide)

/-- Claim C8 witness: a non-turn-taker message, an over-long move, and an
accepted move on a concrete session. -/
theorem move_submission_spec_witness :
    (turnMessageHandler wPlay 1 6 "hello there" = wPlay) ∧
    ((turnMessageHandler wPlay 1 5 "one two three four five").games = wPlay.games ∧
      (turnMessageHandler wPlay 1 5 "one two three four five").pending = wPlay.pending ∧
      (turnMessageHandler wPlay 1 5 "one two three four five").log = wPlay.log ++ [Msg.tooLong]) ∧
    ((∀ tid0, wPlayGame.turnTask = some tid0 → tid0 < wPlay.nextTid →
        ∀ tk ∈ (turnMessageHandler wPlay 1 5 "red fox").pending, tk.tid ≠ tid0) ∧
      (∃ g2, alookup 1 (turnMessageHandler wPlay 1 5 "red fox").games = some g2 ∧
        g2.currentTurn = nextIdx wPlayGame ∧ g2.currentRound = nextRound wPlayGame)) :=
  ⟨(move_submission_spec wPlay 1 6 "hello there" wPlayGame 5 rfl rfl rfl (by decide)).1
      (by decide),
   (move_submission_spec wPlay 1 5 "one two three four five" wPlayGame 5 rfl rfl rfl
      (by decide)).2.1 rfl (by decide),
   (move_submission_spec wPlay 1 5 "red fox" wPlayGame 5 rfl rfl rfl (by decide)).2.2 rfl
      (by decide)⟩

/-- Claim C9 witness: the invariant evaluated on a concrete trace. -/
theorem vote_record_keys_invariant_witness :
    WorldOK (run initWorld [.create 1 10 42, .join 10 42 defaultSettings,
      .join 11 42 defaultSettings, .join 12 42 defaultSettings,
      .begin 1 [11, 10, 12] 10 (some ("cat", "meows")) defaultSettings]) :=
  vote_record_keys_invariant _

/-- Claim C4 witness: the four begin cases applied to concrete sessions —
absent, not WAITING, two participants, and three participants. -/
theorem begin_player_bounds_amended_witness :
    (startCmdGroup wWaitWorld 2 [1, 2, 3] 1 (some ("w", "c")) defaultSettings = wWaitWorld) ∧
    (startCmdGroup wPlay 1 [5, 6, 7] 5 (some ("w", "c")) defaultSettings = wPlay) ∧
    ((startCmdGroup wWaitWorldSmall 1 [1, 2] 1 (some ("w", "c")) defaultSettings).games =
        wWaitWorldSmall.games ∧
      (startCmdGroup wWaitWorldSmall 1 [1, 2] 1 (some ("w", "c")) defaultSettings).log =
        wWaitWorldSmall.log ++ [Msg.minPlayers]) ∧
    (∃ g2, alookup 1
        (startCmdGroup wWaitWorld 1 [1, 2, 3] 1 (some ("w", "c")) defaultSettings).games =
        some g2 ∧ g2.state = .playing) :=
  ⟨(begin_player_bounds_amended wWaitWorld 2 [1, 2, 3] 1 ("w", "c") defaultSettings).1 rfl,
   (begin_player_bounds_amended wPlay 1 [5, 6, 7] 5 ("w", "c") defaultSettings).2.1 wPlayGame
      rfl (by decide),
   (begin_player_bounds_amended wWaitWorldSmall 1 [1, 2] 1 ("w", "c") defaultSettings).2.2.1
      wWaitGameSmall rfl rfl (by decide),
   (begin_player_bounds_amended wWaitWorld 1 [1, 2, 3] 1 ("w", "c") defaultSettings).2.2.2
      wWaitGame rfl rfl (by decide) (by decide) (by decide)⟩

/-- Claim C5 witness: a foreign press is ignored; a done press that
completes the finalized set on a VOTING session triggers the tally and the
session is removed. -/
theorem finalize_ballot_amended_witness :
    (handleVoteDone c5wWorld 2 1 = c5wWorld) ∧
    ((handleVoteDone c5wWorld 1 1).games = []) :=
  ⟨(finalize_ballot_amended c5wWorld 2 1).1 (by decide),
   ((finalize_ballot_amended c5wWorld 1 1).2.2 [] 3 c5wGame [] rfl rfl (by decide) (by decide)
      (by decide) _ rfl).2.1 (by decide) rfl⟩

/-- Claim C6 witness: a foreign press is ignored; a valid press records
the tentative choice; re-selection is idempotent. -/
theorem select_candidate_amended_witness :
    (handleVoteSelect c6wWorld 9 5 4 = c6wWorld) ∧
    ((handleVoteSelect c6wWorld 4 5 4).games =
      [] ++ (2, { c6wGame with
        voteSelections := aset 4 (some 5) c6wGame.voteSelections }) :: []) ∧
    (handleVoteSelect (handleVoteSelect c6wWorld 4 5 4) 4 5 4 =
      handleVoteSelect c6wWorld 4 5 4) :=
  ⟨(select_candidate_amended c6wWorld 9 5 4).1 (by decide),
   (select_candidate_amended c6wWorld 4 5 4).2.2.1 [] 2 c6wGame [] rfl rfl (by decide)
      (by decide),
   (select_candidate_amended c6wWorld 4 5 4).2.2.2⟩

/-- Claim C10 witness: voter 10 is a participant of both sessions; the
ballot button carries target 20, a participant only of the second session,
yet the handler applies the selection to the first session in registry
order. -/
theorem vote_callback_first_session_resolution_witness :
    ((handleVoteSelect c10World 10 20 10).games =
      [] ++ (1, { c10GameA with
        voteSelections := aset 10 (some 20) c10GameA.voteSelections }) :: [(2, c10GameB)]) ∧
    (∀ p ∈ ([] : List (Nat × Game)) ++ [(2, c10GameB)],
      p ∈ (handleVoteSelect c10World 10 20 10).games) ∧
    ((scanDone 10 c10World.games).1 =
      [] ++ (1, { c10GameA with
        votes := aset 10 ((alookup 10 c10GameA.voteSelections).getD none) c10GameA.votes,
        doneVotes := setAdd 10 c10GameA.doneVotes }) :: [(2, c10GameB)]) :=
  vote_callback_first_session_resolution c10World 10 20 10 rfl [] [(2, c10GameB)] 1 c10GameA
    rfl (by decide) (by decide)

